import Mathlib

/-!
Shallow embedding of `rectools/visuals/metrics_app.py` (the `MetricsApp`
widget): the data model (pandas DataFrames restricted to the cell kinds this
code touches), the validators, the constructor, and the two data-reshaping
views, together with theorems settling the spec claims.

Modelling conventions:
* A pandas `DataFrame` is a column-name list plus a list of rows; the
  positional index is not modelled, so `reset_index(drop=True)` is the
  identity.
* A missing value (`NaN`) is the cell `Cell.nan`.  `Series.nunique()` drops
  missing values; `Series.unique()` keeps them; `merge` keys compare equal
  cells (pandas merge does match NaN keys to NaN keys).
* `str.replace(" ", "_")` has a single-character pattern, so it is exactly a
  character map over the string.
* Float-to-string rendering differs in formatting from Python (`Rat` is
  rendered as a fraction); model and fold cells in this pipeline are strings
  and integers, whose rendering matches Python's `str`.
* Display-only state (`show_legend`, `auto_display`, `scatter_kwargs`, the
  plotly figure) and the chart-building code are outside the embedding; only
  the validation, construction and data-reshaping logic is modelled.
* `functools.lru_cache` on the view methods is modelled by explicit caches in
  `AppState`, threaded through each call.
-/

namespace MetricsAppSpec

/-- A single cell of a pandas DataFrame, restricted to the value kinds the
`MetricsApp` pipeline manipulates: strings, integers, rationals (standing for
Python floats) and the missing value `NaN`. -/
inductive Cell where
  | str : String → Cell
  | int : Int → Cell
  | rat : ℚ → Cell
  | nan : Cell
deriving DecidableEq, Repr

/-- Constructor tag, used only to order cells of different kinds totally
(Python `sorted` would raise on mixed kinds; the pipeline only ever sorts
homogeneous columns). -/
def Cell.tag : Cell → Nat
  | .str _ => 0
  | .int _ => 1
  | .rat _ => 2
  | .nan => 3

/-- Lexicographic comparison of character lists by code point, as Python
compares strings. -/
def charListLE : List Char → List Char → Bool
  | [], _ => true
  | _ :: _, [] => false
  | a :: as, b :: bs =>
    if a.toNat < b.toNat then true
    else if b.toNat < a.toNat then false
    else charListLE as bs

/-- String comparison by code points (Python string ordering). -/
def strLE (a b : String) : Bool := charListLE a.data b.data

/-- Total comparison on cells: same-kind cells compare by value, mixed kinds
by constructor tag. -/
def cellLE (a b : Cell) : Bool :=
  match a, b with
  | .str x, .str y => strLE x y
  | .int x, .int y => decide (x ≤ y)
  | .rat x, .rat y => decide (x ≤ y)
  | x, y => decide (x.tag ≤ y.tag)

/-- Stable insertion of a cell into a sorted list. -/
def insertCell (a : Cell) : List Cell → List Cell
  | [] => [a]
  | b :: l => if cellLE a b then a :: b :: l else b :: insertCell a l

/-- Insertion sort on cells, modelling Python's `sorted` and pandas' sorted
group keys. -/
def sortCells : List Cell → List Cell
  | [] => []
  | a :: l => insertCell a (sortCells l)

/-- Keep the first occurrence of each element, in order of first appearance
(pandas `drop_duplicates` / `Series.unique` semantics), with an accumulator
of already-seen elements. -/
def dedupFirstAux {α : Type} [DecidableEq α] (seen : List α) : List α → List α
  | [] => []
  | a :: l => if a ∈ seen then dedupFirstAux seen l else a :: dedupFirstAux (a :: seen) l

/-- Keep the first occurrence of each element, in order of first appearance. -/
def dedupFirst {α : Type} [DecidableEq α] (l : List α) : List α := dedupFirstAux [] l

/-- `Series.nunique()`: the number of distinct non-missing values. -/
def nunique (l : List Cell) : Nat := ((l.filter (fun c => c ≠ Cell.nan)).dedup).length

/-- `set(series.unique())`: the set of values, missing values included. -/
def uniqueSet (l : List Cell) : Finset Cell := l.toFinset

/-- A pandas DataFrame: ordered column names and rows of cells. -/
structure DataFrame where
  cols : List String
  rows : List (List Cell)
deriving DecidableEq, Repr

/-- All rows have exactly one cell per column. -/
def DataFrame.WF (df : DataFrame) : Prop := ∀ r ∈ df.rows, r.length = df.cols.length

instance (df : DataFrame) : Decidable df.WF := List.decidableBAll _ _

/-- Position of a column among the column names. -/
def DataFrame.colIdx (df : DataFrame) (c : String) : Option Nat :=
  df.cols.findIdx? (fun x => x == c)

/-- The cell of one row in the named column (missing column or short row
reads as `NaN`). -/
def DataFrame.getCellR (df : DataFrame) (r : List Cell) (c : String) : Cell :=
  match df.colIdx c with
  | some i => r.getD i Cell.nan
  | none => Cell.nan

/-- The named column as a list of cells (`df[c]`). -/
def DataFrame.getCol (df : DataFrame) (c : String) : List Cell :=
  match df.colIdx c with
  | some i => df.rows.map (fun r => r.getD i Cell.nan)
  | none => []

/-- Column assignment `df[c] = vals`: overwrite the column in place, or append
a new column when absent. -/
def DataFrame.setCol (df : DataFrame) (c : String) (vals : List Cell) : DataFrame :=
  match df.colIdx c with
  | some i => ⟨df.cols, (df.rows.zip vals).map (fun p => p.1.set i p.2)⟩
  | none => ⟨df.cols ++ [c], (df.rows.zip vals).map (fun p => p.1 ++ [p.2])⟩

/-- Column projection `df[cs]`. -/
def DataFrame.select (df : DataFrame) (cs : List String) : DataFrame :=
  ⟨cs, df.rows.map (fun r => cs.map (fun c => df.getCellR r c))⟩

/-- `left.merge(right, on=key, how="left")`: each left row is paired with
every right row having an equal key cell, or with `NaN` fill when none
matches.  Suffixing of overlapping non-key column names is not modelled; the
frames merged in this pipeline share only the key column. -/
def DataFrame.mergeLeft (l r : DataFrame) (key : String) : DataFrame :=
  let rOther := r.cols.filter (fun c => !(c == key))
  ⟨l.cols ++ rOther,
    l.rows.flatMap (fun lrow =>
      let k := l.getCellR lrow key
      let ms := r.rows.filter (fun rr => r.getCellR rr key == k)
      if ms.isEmpty then [lrow ++ rOther.map (fun _ => Cell.nan)]
      else ms.map (fun rr => lrow ++ rOther.map (fun c => r.getCellR rr c)))⟩

/-- `df.groupby(c)`: group keys are the distinct non-missing values of the
column (pandas drops `NaN` keys), in sorted order when `srt` (pandas default)
and in first-appearance order otherwise (`sort=False`); each group holds the
rows whose key cell equals the group key. -/
def DataFrame.groupByCol (df : DataFrame) (c : String) (srt : Bool) :
    List (Cell × DataFrame) :=
  let keys0 := dedupFirst ((df.getCol c).filter (fun x => x ≠ Cell.nan))
  let keys := if srt then sortCells keys0 else keys0
  keys.map (fun k => (k, ⟨df.cols, df.rows.filter (fun r => df.getCellR r c == k)⟩))

/-- The column-name constants.  Modelled from the spec: `rectools/columns.py`
(the `Columns` class) is not under `src/`; the spec's design note states that
the fold-consistency validator's hardcoded `"i_split"` and the symbolic
`Columns.Split` constant name the same column, and the doctest shows
`Columns.Model` / `Columns.Split` as the model-name and fold columns. -/
def Columns.Model : String := "model"

/-- Modelled from the spec: the fold-number column constant, equal to the
hardcoded `"i_split"` used inside the fold-consistency validator. -/
def Columns.Split : String := "i_split"

/-- The exceptions the validators raise: `ValueError`, `KeyError`, and the
`StopIteration` that escapes `next(iter(...))` on an empty groupby. -/
inductive VError where
  | valueError : String → VError
  | keyError : String → VError
  | stopIteration : VError
deriving DecidableEq, Repr

deriving instance DecidableEq for Except

/-- `str(x)` / `Series.astype(str)` on a cell. -/
def cellToString : Cell → String
  | .str s => s
  | .int n => toString n
  | .rat q => toString q
  | .nan => "nan"

/-- `s.replace(" ", "_")`: the pattern is one character, so the replacement is
a character map. -/
def normSpaces (s : String) : String :=
  String.mk (s.data.map (fun c => if c = ' ' then '_' else c))

/-- `MetricsApp._validate_models_metrics_base`.  The `isinstance` check is
enforced by the embedding's types. -/
def validateModelsMetricsBase (df : DataFrame) : Except VError Unit :=
  if Columns.Model ∉ df.cols then
    .error (.keyError "Missing Model column in metrics_data DataFrame")
  else if (df.cols.filter (fun c => !(c == Columns.Model || c == Columns.Split))).length < 1 then
    .error (.keyError "metrics_data DataFrame assumed to have at least one metric column")
  else if df.rows.any (fun r => r.any (fun c => c == Cell.nan)) then
    .error (.valueError "Found NaN values in metrics_data")
  else
    .ok ()

/-- The loop body of `MetricsApp._validate_models_metrics_split`: check every
group's fold count and fold set against the reference values, first failure
wins.  The source reads the fold column of each group through the hardcoded
name `"i_split"`. -/
def checkSplitGroups (refCount : Nat) (refNames : Finset Cell) :
    List (Cell × DataFrame) → Except VError Unit
  | [] => .ok ()
  | (m, g) :: rest =>
    if nunique (g.getCol "i_split") ≠ refCount then
      .error (.valueError (cellToString m ++ " does not have the expected fold amount"))
    else if uniqueSet (g.getCol "i_split") ≠ refNames then
      .error (.valueError (cellToString m ++ " does not have the expected fold names"))
    else checkSplitGroups refCount refNames rest

/-- `MetricsApp._validate_models_metrics_split`: no-op without a fold column;
otherwise the reference fold count and fold set come from the first group (in
pandas' sorted key order), and every group is checked against them.
`next(iter(...))` on an empty groupby escapes as `StopIteration`. -/
def validateModelsMetricsSplit (df : DataFrame) : Except VError Unit :=
  if Columns.Split ∉ df.cols then .ok ()
  else
    match df.groupByCol Columns.Model true with
    | [] => .error .stopIteration
    | (k, refG) :: rest =>
      checkSplitGroups (nunique (refG.getCol Columns.Split))
        (uniqueSet (refG.getCol Columns.Split)) ((k, refG) :: rest)

/-- `MetricsApp._validate_models_metrics_names`.  The source assigns the
normalized model column back into the caller's DataFrame before checking
uniqueness, so the possibly-mutated frame is returned alongside the result.
Reading a missing model column is not modelled (pandas would raise `KeyError`
on `df[Columns.Model]`); `construct` only calls this after the base validator
has checked the column's presence. -/
def validateModelsMetricsNames (df : DataFrame) : DataFrame × Except VError Unit :=
  let newVals := (df.getCol Columns.Model).map (fun c => Cell.str (normSpaces (cellToString c)))
  let df' := df.setCol Columns.Model newVals
  if Columns.Split ∈ df.cols then
    let comb := List.zipWith (fun m s => cellToString m ++ cellToString s)
      (df'.getCol Columns.Model) (df'.getCol Columns.Split)
    if comb.dedup.length ≠ comb.length then
      (df', .error (.valueError "Each Model value in the metrics_data DataFrame must be unique"))
    else (df', .ok ())
  else
    if nunique (df'.getCol Columns.Model) ≠ (df'.getCol Columns.Model).length then
      (df', .error (.valueError "Each Model value in the metrics_data DataFrame must be unique"))
    else (df', .ok ())

/-- `MetricsApp._validate_models_metadata`.  The `isinstance` check is
enforced by the embedding's types. -/
def validateModelsMetadata (md : DataFrame) : Except VError Unit :=
  if Columns.Model ∉ md.cols then
    .error (.keyError "Missing Model column in models_metadata DataFrame")
  else if nunique (md.getCol Columns.Model) ≠ md.rows.length then
    .error (.valueError "Model values of models_metadata should be unique")
  else if (md.getCol Columns.Model).any (fun c => c == Cell.nan) then
    .error (.valueError "Found NaN values in Model column")
  else
    .ok ()

/-- The state `MetricsApp.__init__` stores for the data pipeline: the merged
dataset and the metric / metadata column names.  Display-only attributes are
not modelled. -/
structure MetricsApp where
  data : DataFrame
  metricNames : List String
  metaNames : List String
deriving DecidableEq, Repr

/-- `MetricsApp.construct`.  Validation mutates the caller's metrics frame
(the names validator reassigns its model column), so the frame as left behind
is returned alongside the result. -/
def construct (models_metrics : DataFrame) (models_metadata : Option DataFrame) :
    DataFrame × Except VError MetricsApp :=
  match validateModelsMetricsBase models_metrics with
  | .error e => (models_metrics, .error e)
  | .ok () =>
  match validateModelsMetricsSplit models_metrics with
  | .error e => (models_metrics, .error e)
  | .ok () =>
  match validateModelsMetricsNames models_metrics with
  | (mm, .error e) => (mm, .error e)
  | (mm, .ok ()) =>
  let md := match models_metadata with
    | some d => d
    | none => ⟨[Columns.Model], (dedupFirst (mm.getCol Columns.Model)).map (fun c => [c])⟩
  match validateModelsMetadata md with
  | .error e => (mm, .error e)
  | .ok () =>
  let merged0 := mm.mergeLeft md Columns.Model
  let merged := merged0.setCol Columns.Model
    ((merged0.getCol Columns.Model).map
      (fun c => match c with
        | Cell.str s => Cell.str (normSpaces s)
        | _ => Cell.nan))
  let metricNames := mm.cols.filter (fun c => !(c == Columns.Split || c == Columns.Model))
  let metaNames := md.cols.filter (fun c => !(c == Columns.Model))
  (mm, .ok ⟨merged, metricNames, metaNames⟩)

/-- `MetricsApp.model_names`: sorted distinct model names of the stored
dataset. -/
def MetricsApp.modelNames (app : MetricsApp) : List Cell :=
  sortCells (dedupFirst (app.data.getCol Columns.Model))

/-- `MetricsApp.fold_ids`: sorted distinct fold ids when a fold column is
present. -/
def MetricsApp.foldIds (app : MetricsApp) : Option (List Cell) :=
  if Columns.Split ∈ app.data.cols then
    some (sortCells (dedupFirst (app.data.getCol Columns.Split)))
  else none

/-- The per-instance `lru_cache` state of the two view methods. -/
structure AppState where
  app : MetricsApp
  foldCache : List (Cell × DataFrame)
  avgCache : Option DataFrame
deriving DecidableEq, Repr

/-- A freshly constructed instance: both memoization caches empty. -/
def initState (app : MetricsApp) : AppState := ⟨app, [], none⟩

/-- The body of `MetricsApp._make_chart_data_fold`: rows whose fold cell
equals the requested fold number (`reset_index(drop=True)` is the identity
here, the positional index being unmodelled). -/
def makeChartDataFoldPure (app : MetricsApp) (foldNumber : Cell) : DataFrame :=
  ⟨app.data.cols,
    app.data.rows.filter (fun r => app.data.getCellR r Columns.Split == foldNumber)⟩

/-- `MetricsApp._make_chart_data_fold` with its `lru_cache`. -/
def makeChartDataFold (s : AppState) (foldNumber : Cell) : DataFrame × AppState :=
  match s.foldCache.lookup foldNumber with
  | some df => (df, s)
  | none =>
    let df := makeChartDataFoldPure s.app foldNumber
    (df, ⟨s.app, (foldNumber, df) :: s.foldCache, s.avgCache⟩)

/-- `series.mean()` over the numeric cells of a metric column (pandas skips
missing values). -/
def cellMean (l : List Cell) : Cell :=
  let qs := l.filterMap (fun c =>
    match c with
    | Cell.rat q => some q
    | Cell.int n => some (n : ℚ)
    | _ => none)
  if qs.length = 0 then Cell.nan else Cell.rat (qs.sum / (qs.length : ℚ))

/-- The body of `MetricsApp._make_chart_data_avg`: metric columns averaged per
model with group keys in first-appearance order (`sort=False`), metadata
columns de-duplicated row-wise, the two left-joined on the model column. -/
def makeChartDataAvgPure (app : MetricsApp) : DataFrame :=
  let metricDataColumns := Columns.Model :: app.metricNames
  let metaDataColumns := Columns.Model :: app.metaNames
  let groups := (app.data.select metricDataColumns).groupByCol Columns.Model false
  let metricsData : DataFrame :=
    ⟨metricDataColumns,
      groups.map (fun p => p.1 :: app.metricNames.map (fun m => cellMean (p.2.getCol m)))⟩
  let metaData : DataFrame := ⟨metaDataColumns, dedupFirst (app.data.select metaDataColumns).rows⟩
  metricsData.mergeLeft metaData Columns.Model

/-- `MetricsApp._make_chart_data_avg` with its `lru_cache`. -/
def makeChartDataAvg (s : AppState) : DataFrame × AppState :=
  match s.avgCache with
  | some df => (df, s)
  | none =>
    let df := makeChartDataAvgPure s.app
    (df, ⟨s.app, s.foldCache, some df⟩)

/-- `MetricsApp._create_chart_data`: the average view when the use-average box
is ticked or no fold is selected, else the view of the selected fold. -/
def createChartData (s : AppState) (useAvg : Bool) (foldI : Option Cell) :
    DataFrame × AppState :=
  if useAvg || foldI.isNone then makeChartDataAvg s
  else makeChartDataFold s (foldI.getD Cell.nan)

/-! ### Concrete input tables used to settle and witness the claims -/

/-- Metrics table whose single model name contains a space. -/
def c1Metrics : DataFrame :=
  ⟨[Columns.Model, "prec@10"], [[Cell.str "Model 1", Cell.int 1]]⟩

/-- Metadata table keyed by the very same space-containing model name. -/
def c1Meta : DataFrame :=
  ⟨[Columns.Model, "factors"], [[Cell.str "Model 1", Cell.int 64]]⟩

/-- Metrics table with two models over two folds, equal fold sets. -/
def c2Metrics : DataFrame :=
  ⟨[Columns.Model, Columns.Split, "m"],
    [[Cell.str "A", Cell.int 0, Cell.int 1],
     [Cell.str "B", Cell.int 0, Cell.int 2],
     [Cell.str "A", Cell.int 1, Cell.int 3],
     [Cell.str "B", Cell.int 1, Cell.int 4]]⟩

/-- The group of model "A" inside `c2Metrics` under the model groupby. -/
def c2g0 : DataFrame :=
  ⟨[Columns.Model, Columns.Split, "m"],
    [[Cell.str "A", Cell.int 0, Cell.int 1], [Cell.str "A", Cell.int 1, Cell.int 3]]⟩

/-- The group of model "B" inside `c2Metrics` under the model groupby. -/
def c2g1 : DataFrame :=
  ⟨[Columns.Model, Columns.Split, "m"],
    [[Cell.str "B", Cell.int 0, Cell.int 2], [Cell.str "B", Cell.int 1, Cell.int 4]]⟩

/-- Metrics table without a fold column whose two model names are distinct but
collide after space normalization. -/
def c3Bad : DataFrame :=
  ⟨[Columns.Model, "m"],
    [[Cell.str "Model 1", Cell.int 1], [Cell.str "Model_1", Cell.int 2]]⟩

/-- Metrics table with a single space-containing model name. -/
def c4Bad : DataFrame :=
  ⟨[Columns.Model, "m"], [[Cell.str "Model 1", Cell.int 1]]⟩

/-- Metrics table from the spec's average-view example: two models over folds
0,1,2 with metric `prec@10` equal to 0.1,0.3,0.5 for Model1 and 0.2,0.4,0.6
for Model2 (rationals are given in lowest terms so that every cell is a
literal normal form). -/
def c5Metrics : DataFrame :=
  ⟨[Columns.Model, Columns.Split, "prec@10"],
    [[Cell.str "Model1", Cell.int 0, Cell.rat (Rat.mk' 1 10)],
     [Cell.str "Model2", Cell.int 0, Cell.rat (Rat.mk' 1 5)],
     [Cell.str "Model1", Cell.int 1, Cell.rat (Rat.mk' 3 10)],
     [Cell.str "Model2", Cell.int 1, Cell.rat (Rat.mk' 2 5)],
     [Cell.str "Model1", Cell.int 2, Cell.rat (Rat.mk' 1 2)],
     [Cell.str "Model2", Cell.int 2, Cell.rat (Rat.mk' 3 5)]]⟩

/-- The group of "Model1" in the metric projection of `c5Metrics`. -/
def c5gM1 : DataFrame :=
  ⟨[Columns.Model, "prec@10"],
    [[Cell.str "Model1", Cell.rat (Rat.mk' 1 10)],
     [Cell.str "Model1", Cell.rat (Rat.mk' 3 10)],
     [Cell.str "Model1", Cell.rat (Rat.mk' 1 2)]]⟩

/-- The group of "Model2" in the metric projection of `c5Metrics`. -/
def c5gM2 : DataFrame :=
  ⟨[Columns.Model, "prec@10"],
    [[Cell.str "Model2", Cell.rat (Rat.mk' 1 5)],
     [Cell.str "Model2", Cell.rat (Rat.mk' 2 5)],
     [Cell.str "Model2", Cell.rat (Rat.mk' 3 5)]]⟩

/-- The app constructed from `c5Metrics` with no metadata. -/
def c5App : MetricsApp :=
  ⟨⟨[Columns.Model, Columns.Split, "prec@10"],
     [[Cell.str "Model1", Cell.int 0, Cell.rat (Rat.mk' 1 10)],
      [Cell.str "Model2", Cell.int 0, Cell.rat (Rat.mk' 1 5)],
      [Cell.str "Model1", Cell.int 1, Cell.rat (Rat.mk' 3 10)],
      [Cell.str "Model2", Cell.int 1, Cell.rat (Rat.mk' 2 5)],
      [Cell.str "Model1", Cell.int 2, Cell.rat (Rat.mk' 1 2)],
      [Cell.str "Model2", Cell.int 2, Cell.rat (Rat.mk' 3 5)]]⟩,
    ["prec@10"], []⟩

/-- A metrics table whose first-appearance model order ("Z" before "A")
differs from sorted order, with integer metrics and a metadata table, to
observe group ordering and the metadata join of the average view. -/
def c5bMetrics : DataFrame :=
  ⟨[Columns.Model, Columns.Split, "m"],
    [[Cell.str "Z", Cell.int 0, Cell.int 1],
     [Cell.str "A", Cell.int 0, Cell.int 2],
     [Cell.str "Z", Cell.int 1, Cell.int 3],
     [Cell.str "A", Cell.int 1, Cell.int 4]]⟩

/-- Metadata for the ordering probe. -/
def c5bMeta : DataFrame :=
  ⟨[Columns.Model, "f"], [[Cell.str "Z", Cell.int 10], [Cell.str "A", Cell.int 20]]⟩

/-- The group of "Z" in the metric projection of the `c5bMetrics` app. -/
def c5bgZ : DataFrame :=
  ⟨[Columns.Model, "m"], [[Cell.str "Z", Cell.int 1], [Cell.str "Z", Cell.int 3]]⟩

/-- The group of "A" in the metric projection of the `c5bMetrics` app. -/
def c5bgA : DataFrame :=
  ⟨[Columns.Model, "m"], [[Cell.str "A", Cell.int 2], [Cell.str "A", Cell.int 4]]⟩

/-- The app constructed from `c5bMetrics` with metadata `c5bMeta`. -/
def c5bApp : MetricsApp :=
  ⟨⟨[Columns.Model, Columns.Split, "m", "f"],
     [[Cell.str "Z", Cell.int 0, Cell.int 1, Cell.int 10],
      [Cell.str "A", Cell.int 0, Cell.int 2, Cell.int 20],
      [Cell.str "Z", Cell.int 1, Cell.int 3, Cell.int 10],
      [Cell.str "A", Cell.int 1, Cell.int 4, Cell.int 20]]⟩,
    ["m"], ["f"]⟩

/-- Metrics table with no model column. -/
def c6NoModel : DataFrame :=
  ⟨[Columns.Split, "prec@10"], [[Cell.int 0, Cell.int 1]]⟩

/-- Metrics table with model and fold columns but no metric column. -/
def c6NoMetrics : DataFrame :=
  ⟨[Columns.Model, Columns.Split], [[Cell.str "m1", Cell.int 0]]⟩

/-- Metadata table with no model column. -/
def c7NoModel : DataFrame := ⟨["factors"], [[Cell.int 64]]⟩

/-- Metadata table with duplicated model values. -/
def c7Dup : DataFrame :=
  ⟨[Columns.Model, "factors"],
    [[Cell.str "m1", Cell.int 64], [Cell.str "m1", Cell.int 32]]⟩

/-- Metrics input for the normalization-invariant witness. -/
def c10Metrics : DataFrame :=
  ⟨[Columns.Model, "m"], [[Cell.str "Model 1", Cell.int 1]]⟩

/-- The metrics frame as construction leaves it behind (model column
normalized in place). -/
def c10Out : DataFrame :=
  ⟨[Columns.Model, "m"], [[Cell.str "Model_1", Cell.int 1]]⟩

/-- The app constructed from `c10Metrics` with no metadata. -/
def c10App : MetricsApp :=
  ⟨⟨[Columns.Model, "m"], [[Cell.str "Model_1", Cell.int 1]]⟩, ["m"], []⟩

/-! ### Library-style lemmas about the embedding's primitives -/

lemma dedup_length_eq_iff {α : Type} [DecidableEq α] (l : List α) :
    l.dedup.length = l.length ↔ l.Nodup := by
  constructor
  · intro h
    exact List.dedup_eq_self.mp (List.Sublist.eq_of_length (List.dedup_sublist l) h)
  · intro h
    rw [List.Nodup.dedup h]

lemma nunique_eq_length_iff (l : List Cell) :
    nunique l = l.length ↔ l.Nodup ∧ Cell.nan ∉ l := by
  unfold nunique
  constructor
  · intro h
    have hle1 : (l.filter (fun c => c ≠ Cell.nan)).dedup.length ≤
        (l.filter (fun c => c ≠ Cell.nan)).length :=
      List.Sublist.length_le (List.dedup_sublist _)
    have hle2 : (l.filter (fun c => c ≠ Cell.nan)).length ≤ l.length :=
      List.length_filter_le _ _
    have hflen : (l.filter (fun c => c ≠ Cell.nan)).length = l.length :=
      le_antisymm hle2 (by omega)
    have hfeq : l.filter (fun c => c ≠ Cell.nan) = l :=
      List.Sublist.eq_of_length (List.filter_sublist l) hflen
    have hnodup : l.Nodup := by
      have hd : (l.filter (fun c => c ≠ Cell.nan)).dedup.length =
          (l.filter (fun c => c ≠ Cell.nan)).length := by omega
      have := (dedup_length_eq_iff _).mp hd
      rwa [hfeq] at this
    refine ⟨hnodup, fun hmem => ?_⟩
    have := (List.filter_eq_self.mp hfeq) Cell.nan hmem
    simp at this
  · rintro ⟨hnodup, hnan⟩
    have hfeq : l.filter (fun c => c ≠ Cell.nan) = l := by
      apply List.filter_eq_self.mpr
      intro a ha
      simp only [decide_eq_true_eq]
      rintro rfl
      exact hnan ha
    rw [hfeq, List.Nodup.dedup hnodup]

lemma nunique_eq_card_filter (l : List Cell) :
    nunique l = (l.toFinset.filter (fun c => c ≠ Cell.nan)).card := by
  unfold nunique
  rw [← List.card_toFinset, List.toFinset_filter]
  simp

lemma nunique_congr_of_uniqueSet {l₁ l₂ : List Cell}
    (h : uniqueSet l₁ = uniqueSet l₂) : nunique l₁ = nunique l₂ := by
  rw [nunique_eq_card_filter, nunique_eq_card_filter]
  unfold uniqueSet at h
  rw [h]

lemma mem_insertCell {a b : Cell} {l : List Cell} :
    a ∈ insertCell b l ↔ a = b ∨ a ∈ l := by
  induction l with
  | nil => simp [insertCell]
  | cons x xs ih =>
    rw [insertCell]
    split
    · simp
    · simp only [List.mem_cons, ih]
      tauto

lemma mem_sortCells {a : Cell} {l : List Cell} : a ∈ sortCells l ↔ a ∈ l := by
  induction l with
  | nil => simp [sortCells]
  | cons x xs ih => simp [sortCells, mem_insertCell, ih]

lemma mem_dedupFirstAux {α : Type} [DecidableEq α] {a : α} (seen : List α) (l : List α) :
    a ∈ dedupFirstAux seen l ↔ a ∈ l ∧ a ∉ seen := by
  induction l generalizing seen with
  | nil => simp [dedupFirstAux]
  | cons x xs ih =>
    by_cases hx : x ∈ seen
    · rw [dedupFirstAux, if_pos hx, ih, List.mem_cons]
      constructor
      · rintro ⟨h1, h2⟩; exact ⟨Or.inr h1, h2⟩
      · rintro ⟨h1 | h1, h2⟩
        · exact absurd (h1 ▸ hx) h2
        · exact ⟨h1, h2⟩
    · rw [dedupFirstAux, if_neg hx, List.mem_cons, List.mem_cons, ih]
      constructor
      · rintro (rfl | ⟨h1, h2⟩)
        · exact ⟨Or.inl rfl, hx⟩
        · refine ⟨Or.inr h1, fun hs => h2 ?_⟩
          exact List.mem_cons_of_mem _ hs
      · rintro ⟨rfl | h1, h2⟩
        · exact Or.inl rfl
        · by_cases hax : a = x
          · exact Or.inl hax
          · refine Or.inr ⟨h1, fun hc => ?_⟩
            rcases List.mem_cons.mp hc with rfl | hc
            · exact hax rfl
            · exact h2 hc

lemma mem_dedupFirst {α : Type} [DecidableEq α] {a : α} {l : List α} :
    a ∈ dedupFirst l ↔ a ∈ l := by
  unfold dedupFirst
  rw [mem_dedupFirstAux]
  simp

lemma colIdx_eq_none_iff (df : DataFrame) (c : String) :
    df.colIdx c = none ↔ c ∉ df.cols := by
  unfold DataFrame.colIdx
  rw [List.findIdx?_eq_none_iff]
  constructor
  · intro h hc
    have := h c hc
    simp at this
  · intro h x hx
    simp only [beq_eq_false_iff_ne, ne_eq]
    rintro rfl
    exact h hx

lemma colIdx_isSome_of_mem {df : DataFrame} {c : String} (h : c ∈ df.cols) :
    ∃ i, df.colIdx c = some i := by
  cases hq : df.colIdx c with
  | none => exact absurd ((colIdx_eq_none_iff df c).mp hq) (by simp [h])
  | some i => exact ⟨i, rfl⟩

lemma colIdx_lt_length {df : DataFrame} {c : String} {i : Nat}
    (h : df.colIdx c = some i) : i < df.cols.length := by
  unfold DataFrame.colIdx at h
  exact (List.findIdx?_eq_some_iff_findIdx_eq.mp h).1

lemma colIdx_getElem {df : DataFrame} {c : String} {i : Nat}
    (h : df.colIdx c = some i) : ∃ hi : i < df.cols.length, df.cols[i] = c := by
  unfold DataFrame.colIdx at h
  obtain ⟨hi, hfind⟩ := List.findIdx?_eq_some_iff_findIdx_eq.mp h
  subst hfind
  exact ⟨hi, by simpa using @List.findIdx_getElem _ (fun x => x == c) df.cols hi⟩

lemma getCol_eq_of_colIdx {df : DataFrame} {c : String} {i : Nat}
    (h : df.colIdx c = some i) :
    df.getCol c = df.rows.map (fun r => r.getD i Cell.nan) := by
  unfold DataFrame.getCol
  rw [h]

lemma getCol_eq_nil_of_colIdx {df : DataFrame} {c : String}
    (h : df.colIdx c = none) : df.getCol c = [] := by
  unfold DataFrame.getCol
  rw [h]

lemma getCol_length {df : DataFrame} {c : String} (h : c ∈ df.cols) :
    (df.getCol c).length = df.rows.length := by
  obtain ⟨i, hi⟩ := colIdx_isSome_of_mem h
  rw [getCol_eq_of_colIdx hi]
  simp

lemma setCol_cols {df : DataFrame} {c : String} {i : Nat} (h : df.colIdx c = some i)
    (vals : List Cell) : (df.setCol c vals).cols = df.cols := by
  unfold DataFrame.setCol
  rw [h]

lemma setCol_rows_eq {df : DataFrame} {c : String} {i : Nat} (h : df.colIdx c = some i)
    (vals : List Cell) :
    (df.setCol c vals).rows = (df.rows.zip vals).map (fun p => p.1.set i p.2) := by
  unfold DataFrame.setCol
  rw [h]

lemma rows_zip_set_getD {i : Nat} (rows : List (List Cell)) (vals : List Cell)
    (hlen : rows.length = vals.length) (hb : ∀ r ∈ rows, i < r.length) :
    ((rows.zip vals).map (fun p => p.1.set i p.2)).map (fun r => r.getD i Cell.nan) = vals := by
  induction rows generalizing vals with
  | nil => cases vals with
    | nil => rfl
    | cons v vs => simp at hlen
  | cons r rs ih =>
    cases vals with
    | nil => simp at hlen
    | cons v vs =>
      simp only [List.zip_cons_cons, List.map_cons, List.cons.injEq]
      constructor
      · have hib : i < r.length := hb r (List.mem_cons_self r rs)
        rw [List.getD_eq_getElem?_getD, List.getElem?_set_self (by simpa using hib)]
        rfl
      · exact ih vs (by simpa using hlen) (fun r' hr' => hb r' (List.mem_cons_of_mem _ hr'))

lemma colIdx_setCol {df : DataFrame} {c : String} {i : Nat} (h : df.colIdx c = some i)
    (vals : List Cell) (c' : String) : (df.setCol c vals).colIdx c' = df.colIdx c' := by
  unfold DataFrame.colIdx
  rw [setCol_cols h vals]

lemma getCol_setCol_self {df : DataFrame} {c : String} {i : Nat}
    (h : df.colIdx c = some i) (hWF : df.WF) {vals : List Cell}
    (hlen : vals.length = df.rows.length) :
    (df.setCol c vals).getCol c = vals := by
  rw [getCol_eq_of_colIdx ((colIdx_setCol h vals c).trans h), setCol_rows_eq h vals]
  exact rows_zip_set_getD df.rows vals hlen.symm
    (fun r hr => (hWF r hr) ▸ colIdx_lt_length h)

lemma rows_zip_set_getD_other {i j : Nat} (hne : i ≠ j) (rows : List (List Cell))
    (vals : List Cell) (hlen : rows.length = vals.length) :
    ((rows.zip vals).map (fun p => p.1.set i p.2)).map (fun r => r.getD j Cell.nan) =
      rows.map (fun r => r.getD j Cell.nan) := by
  induction rows generalizing vals with
  | nil => rfl
  | cons r rs ih =>
    cases vals with
    | nil => simp at hlen
    | cons v vs =>
      simp only [List.zip_cons_cons, List.map_cons, List.cons.injEq]
      constructor
      · rw [List.getD_eq_getElem?_getD, List.getD_eq_getElem?_getD, List.getElem?_set_ne hne]
      · exact ih vs (by simpa using hlen)

lemma getCol_setCol_other {df : DataFrame} {c c' : String} {i : Nat}
    (h : df.colIdx c = some i) (hne : c' ≠ c) {vals : List Cell}
    (hlen : vals.length = df.rows.length) :
    (df.setCol c vals).getCol c' = df.getCol c' := by
  cases hq : df.colIdx c' with
  | none =>
    rw [getCol_eq_nil_of_colIdx ((colIdx_setCol h vals c').trans hq),
      getCol_eq_nil_of_colIdx hq]
  | some j =>
    have hij : i ≠ j := by
      rintro rfl
      obtain ⟨hi1, he1⟩ := colIdx_getElem h
      obtain ⟨hi2, he2⟩ := colIdx_getElem hq
      exact hne (he2.symm.trans he1)
    rw [getCol_eq_of_colIdx ((colIdx_setCol h vals c').trans hq),
      getCol_eq_of_colIdx hq, setCol_rows_eq h vals]
    exact rows_zip_set_getD_other hij df.rows vals hlen.symm

lemma setCol_rows_length {df : DataFrame} {c : String} {i : Nat}
    (h : df.colIdx c = some i) {vals : List Cell} (hlen : vals.length = df.rows.length) :
    (df.setCol c vals).rows.length = df.rows.length := by
  rw [setCol_rows_eq h vals]
  simp [List.length_zip, hlen]

lemma setCol_WF {df : DataFrame} {c : String} {i : Nat}
    (h : df.colIdx c = some i) (hWF : df.WF) (vals : List Cell) :
    (df.setCol c vals).WF := by
  intro r hr
  rw [setCol_rows_eq h vals] at hr
  simp only [List.mem_map] at hr
  obtain ⟨⟨r0, v⟩, hp, rfl⟩ := hr
  have hm := (List.of_mem_zip hp).1
  rw [setCol_cols h vals]
  simp [List.length_set, hWF r0 hm]

lemma mergeLeft_cols (l r : DataFrame) (key : String) :
    (l.mergeLeft r key).cols = l.cols ++ r.cols.filter (fun c => !(c == key)) := rfl

lemma mergeLeft_rows_shape {l r : DataFrame} {key : String} {row : List Cell}
    (h : row ∈ (l.mergeLeft r key).rows) :
    ∃ lrow ∈ l.rows, ∃ tail : List Cell,
      row = lrow ++ tail ∧ tail.length = (r.cols.filter (fun c => !(c == key))).length := by
  simp only [DataFrame.mergeLeft, List.mem_flatMap] at h
  obtain ⟨lrow, hlrow, hrow⟩ := h
  split at hrow
  · simp only [List.mem_singleton] at hrow
    exact ⟨lrow, hlrow, _, hrow, by simp⟩
  · simp only [List.mem_map] at hrow
    obtain ⟨rr, _, hrr⟩ := hrow
    exact ⟨lrow, hlrow, _, hrr.symm, by simp⟩

lemma mergeLeft_WF {l : DataFrame} (r : DataFrame) (key : String) (hWF : l.WF) :
    (l.mergeLeft r key).WF := by
  intro row hrow
  obtain ⟨lrow, hlrow, tail, rfl, htail⟩ := mergeLeft_rows_shape hrow
  rw [mergeLeft_cols]
  simp [hWF lrow hlrow, htail]

lemma colIdx_mergeLeft_left {l : DataFrame} (r : DataFrame) {key : String} {i : Nat}
    (h : l.colIdx key = some i) : (l.mergeLeft r key).colIdx key = some i := by
  rw [show (l.mergeLeft r key).colIdx key =
    (l.cols ++ r.cols.filter (fun c => !(c == key))).findIdx? (fun x => x == key) from rfl]
  unfold DataFrame.colIdx at h
  rw [List.findIdx?_append, h]
  rfl

lemma mem_getCol_mergeLeft_left {l r : DataFrame} {key : String} {i : Nat}
    (h : l.colIdx key = some i) (hWF : l.WF) :
    ∀ x ∈ (l.mergeLeft r key).getCol key, x ∈ l.getCol key := by
  intro x hx
  have hidx := colIdx_mergeLeft_left r h
  unfold DataFrame.getCol at hx ⊢
  rw [hidx] at hx
  rw [h]
  simp only [List.mem_map] at hx ⊢
  obtain ⟨row, hrow, rfl⟩ := hx
  obtain ⟨lrow, hlrow, tail, rfl, _⟩ := mergeLeft_rows_shape hrow
  refine ⟨lrow, hlrow, ?_⟩
  have hib : i < lrow.length := (hWF lrow hlrow) ▸ colIdx_lt_length h
  rw [List.getD_append _ _ _ _ hib]

lemma normSpaces_no_space (s : String) : ∀ ch ∈ (normSpaces s).data, ch ≠ ' ' := by
  intro ch hch
  unfold normSpaces at hch
  rw [show (String.mk ((s.data.map (fun c => if c = ' ' then '_' else c)))).data =
    s.data.map (fun c => if c = ' ' then '_' else c) from rfl] at hch
  simp only [List.mem_map] at hch
  obtain ⟨c, _, rfl⟩ := hch
  by_cases hc : c = ' ' <;> simp [hc]

lemma normSpaces_idem (s : String) : normSpaces (normSpaces s) = normSpaces s := by
  unfold normSpaces
  rw [show (String.mk ((s.data.map (fun c => if c = ' ' then '_' else c)))).data =
    s.data.map (fun c => if c = ' ' then '_' else c) from rfl]
  rw [List.map_map]
  congr 1
  apply List.map_congr_left
  intro c _
  by_cases hc : c = ' ' <;> simp [hc, Function.comp]

lemma mem_of_colIdx {df : DataFrame} {c : String} {i : Nat}
    (h : df.colIdx c = some i) : c ∈ df.cols := by
  obtain ⟨hi, he⟩ := colIdx_getElem h
  exact he ▸ List.getElem_mem hi

lemma base_ok_model_mem {df : DataFrame}
    (h : validateModelsMetricsBase df = .ok ()) : Columns.Model ∈ df.cols := by
  by_cases hm : Columns.Model ∉ df.cols
  · unfold validateModelsMetricsBase at h
    rw [if_pos hm] at h
    exact absurd h (by simp)
  · exact not_not.mp hm

lemma validateNames_fst (df : DataFrame) :
    (validateModelsMetricsNames df).1 =
      df.setCol Columns.Model
        ((df.getCol Columns.Model).map (fun c => Cell.str (normSpaces (cellToString c)))) := by
  simp only [validateModelsMetricsNames]
  split <;> split <;> rfl

/-! ### Claims -/

/-- C1: the claim states that construction normalizes space-containing model
identifiers consistently in the merged dataset and in the metadata join key,
so the left-join never silently drops metadata.  The code normalizes only the
metrics side (inside the names validator) and never the caller-supplied
metadata key: with identical model name "Model 1" in both tables, both
validations pass, yet the constructed merged dataset holds `NaN` for the
metadata column `factors`. -/
theorem construct_drops_metadata_for_space_names :
    c1Metrics.getCol Columns.Model = c1Meta.getCol Columns.Model ∧
    validateModelsMetadata c1Meta = .ok () ∧
    (construct c1Metrics (some c1Meta)).2 =
      .ok ⟨⟨[Columns.Model, "prec@10", "factors"],
             [[Cell.str "Model_1", Cell.int 1, Cell.nan]]⟩,
           ["prec@10"], ["factors"]⟩ := by
  decide

/-- C8: the fold view returns exactly the rows of the merged dataset whose
fold cell equals the requested fold id, and a second request for the same
fold id (now served from the memoization cache) returns a result equal to the
first. -/
theorem fold_view_filter_and_memoization (app : MetricsApp) (fold : Cell) :
    (makeChartDataFold (initState app) fold).1 =
      ⟨app.data.cols,
        app.data.rows.filter (fun r => app.data.getCellR r Columns.Split == fold)⟩ ∧
    (makeChartDataFold (makeChartDataFold (initState app) fold).2 fold).1 =
      (makeChartDataFold (initState app) fold).1 := by
  constructor
  · rfl
  · simp [makeChartDataFold, initState, List.lookup, makeChartDataFoldPure]

/-- C9: the chart-data selector returns the average view when the use-average
control is enabled or no fold is selected, and the fold view of the selected
fold otherwise. -/
theorem chart_data_selection (s : AppState) (fv : Option Cell) (v : Cell) :
    createChartData s true fv = makeChartDataAvg s ∧
    createChartData s false none = makeChartDataAvg s ∧
    createChartData s false (some v) = makeChartDataFold s v :=
  ⟨rfl, rfl, rfl⟩

/-- C3 counterexample: a metrics table without a fold column whose model
values are pairwise distinct ("Model 1" vs "Model_1"), on which the
uniqueness validator nevertheless raises a value error — so the validator
does not raise "if and only if some model value occurs more than once". -/
theorem names_validation_raises_on_distinct_models :
    (c3Bad.getCol Columns.Model).Nodup ∧
    Columns.Split ∉ c3Bad.cols ∧
    (validateModelsMetricsNames c3Bad).2 =
      .error (.valueError "Each Model value in the metrics_data DataFrame must be unique") := by
  decide

/-- C4 counterexample: the names validator succeeds on a valid table but
mutates it — the input's model column is overwritten with its normalized
form, so the table is not left unchanged. -/
theorem names_validation_mutates_input :
    (validateModelsMetricsNames c4Bad).2 = .ok () ∧
    (validateModelsMetricsNames c4Bad).1 ≠ c4Bad ∧
    (validateModelsMetricsNames c4Bad).1.getCol Columns.Model = [Cell.str "Model_1"] := by
  decide

/-- C4 amended: the only effect of the names validator besides its result is
the in-place normalization of the model column: column names, row count and
every other column are unchanged, and the model column becomes the
string-normalized (spaces to underscores) form of its cells. -/
theorem names_validation_only_mutates_model_column (df : DataFrame)
    (hm : Columns.Model ∈ df.cols) (hWF : df.WF) :
    (validateModelsMetricsNames df).1.cols = df.cols ∧
    (validateModelsMetricsNames df).1.rows.length = df.rows.length ∧
    (validateModelsMetricsNames df).1.getCol Columns.Model =
      (df.getCol Columns.Model).map (fun c => Cell.str (normSpaces (cellToString c))) ∧
    (∀ c, c ≠ Columns.Model → (validateModelsMetricsNames df).1.getCol c = df.getCol c) := by
  obtain ⟨i, hi⟩ := colIdx_isSome_of_mem hm
  have hfst : (validateModelsMetricsNames df).1 =
      df.setCol Columns.Model
        ((df.getCol Columns.Model).map (fun c => Cell.str (normSpaces (cellToString c)))) := by
    simp only [validateModelsMetricsNames]
    split <;> split <;> rfl
  have hlen : ((df.getCol Columns.Model).map
      (fun c => Cell.str (normSpaces (cellToString c)))).length = df.rows.length := by
    rw [List.length_map, getCol_length hm]
  refine ⟨?_, ?_, ?_, ?_⟩
  · rw [hfst]; exact setCol_cols hi _
  · rw [hfst]; exact setCol_rows_length hi hlen
  · rw [hfst]; exact getCol_setCol_self hi hWF hlen
  · intro c hc
    rw [hfst]
    exact getCol_setCol_other hi hc hlen

/-- C4 amended, witnessed at a concrete space-containing table. -/
theorem names_validation_only_mutates_model_column_witness :
    (validateModelsMetricsNames c4Bad).1.cols = c4Bad.cols ∧
    (validateModelsMetricsNames c4Bad).1.rows.length = c4Bad.rows.length ∧
    (validateModelsMetricsNames c4Bad).1.getCol Columns.Model =
      (c4Bad.getCol Columns.Model).map (fun c => Cell.str (normSpaces (cellToString c))) ∧
    (∀ c, c ≠ Columns.Model →
      (validateModelsMetricsNames c4Bad).1.getCol c = c4Bad.getCol c) :=
  names_validation_only_mutates_model_column c4Bad (by decide) (by decide)

/-- C6: the base validator reports a key-lookup error when the model column
is missing, and a key-lookup error when no metric column remains after
excluding the model and fold columns. -/
theorem base_validation_schema_errors (df : DataFrame) :
    (Columns.Model ∉ df.cols →
      validateModelsMetricsBase df =
        .error (.keyError "Missing Model column in metrics_data DataFrame")) ∧
    ((df.cols.filter (fun c => !(c == Columns.Model || c == Columns.Split))).length < 1 →
      ∃ msg, validateModelsMetricsBase df = .error (.keyError msg)) := by
  constructor
  · intro h
    unfold validateModelsMetricsBase
    rw [if_pos h]
  · intro h
    unfold validateModelsMetricsBase
    by_cases hm : Columns.Model ∉ df.cols
    · rw [if_pos hm]
      exact ⟨_, rfl⟩
    · rw [if_neg hm, if_pos h]
      exact ⟨_, rfl⟩

/-- C6 witnessed on a table with no model column and on a table with no
metric column. -/
theorem base_validation_schema_errors_witness :
    (validateModelsMetricsBase c6NoModel =
      .error (.keyError "Missing Model column in metrics_data DataFrame")) ∧
    (∃ msg, validateModelsMetricsBase c6NoMetrics = .error (.keyError msg)) :=
  ⟨(base_validation_schema_errors c6NoModel).1 (by decide),
   (base_validation_schema_errors c6NoMetrics).2 (by decide)⟩

/-- C7: metadata validation succeeds exactly when the model column is present
with pairwise-distinct, non-missing values; a missing model column is
reported as a key-lookup error and any other violation as a value error. -/
theorem metadata_validation_characterization (md : DataFrame) :
    (validateModelsMetadata md = .ok () ↔
      Columns.Model ∈ md.cols ∧ (md.getCol Columns.Model).Nodup ∧
        Cell.nan ∉ md.getCol Columns.Model) ∧
    (Columns.Model ∉ md.cols → ∃ m, validateModelsMetadata md = .error (.keyError m)) ∧
    (Columns.Model ∈ md.cols →
      ¬ ((md.getCol Columns.Model).Nodup ∧ Cell.nan ∉ md.getCol Columns.Model) →
      ∃ m, validateModelsMetadata md = .error (.valueError m)) := by
  by_cases hm : Columns.Model ∈ md.cols
  · have hlen : (md.getCol Columns.Model).length = md.rows.length := getCol_length hm
    have hiff : nunique (md.getCol Columns.Model) = md.rows.length ↔
        (md.getCol Columns.Model).Nodup ∧ Cell.nan ∉ md.getCol Columns.Model := by
      rw [← hlen]
      exact nunique_eq_length_iff _
    unfold validateModelsMetadata
    rw [if_neg (not_not_intro hm)]
    by_cases hu : nunique (md.getCol Columns.Model) ≠ md.rows.length
    · rw [if_pos hu]
      refine ⟨?_, fun h => absurd hm h, fun _ _ => ⟨_, rfl⟩⟩
      constructor
      · intro h
        exact absurd h (by simp)
      · rintro ⟨_, hprop⟩
        exact absurd (hiff.mpr hprop) hu
    · rw [if_neg hu]
      obtain ⟨hnd, hnn⟩ := hiff.mp (not_not.mp hu)
      have hany : ¬ ((md.getCol Columns.Model).any (fun c => c == Cell.nan) = true) := by
        simp only [List.any_eq_true, beq_iff_eq, not_exists]
        intro x hx
        rcases hx with ⟨hmem, rfl⟩
        exact hnn hmem
      rw [if_neg hany]
      exact ⟨by simp [hm, hnd, hnn], fun h => absurd hm h,
        fun _ hbad => absurd ⟨hnd, hnn⟩ hbad⟩
  · unfold validateModelsMetadata
    rw [if_pos hm]
    refine ⟨?_, fun _ => ⟨_, rfl⟩, fun h => absurd h hm⟩
    constructor
    · intro h
      exact absurd h (by simp)
    · rintro ⟨h, _⟩
      exact absurd h hm

/-- C7 witnessed on a metadata table with no model column and one with
duplicate model values. -/
theorem metadata_validation_characterization_witness :
    (∃ m, validateModelsMetadata c7NoModel = .error (.keyError m)) ∧
    (∃ m, validateModelsMetadata c7Dup = .error (.valueError m)) :=
  ⟨(metadata_validation_characterization c7NoModel).2.1 (by decide),
   (metadata_validation_characterization c7Dup).2.2 (by decide) (by decide)⟩

/-- C3 amended: the names validator succeeds exactly when the normalized keys
are pairwise distinct — with a fold column, the space-normalized string form
of each model identifier concatenated with the string form of its fold id;
without one, the space-normalized model cells themselves.  Distinctness of
the raw model (or model, fold) values is neither necessary nor sufficient. -/
theorem names_validation_iff_normalized_keys (df : DataFrame)
    (hm : Columns.Model ∈ df.cols) (hWF : df.WF) :
    ((validateModelsMetricsNames df).2 = .ok () ↔
      (if Columns.Split ∈ df.cols then
        (List.zipWith (fun m s => normSpaces (cellToString m) ++ cellToString s)
          (df.getCol Columns.Model) (df.getCol Columns.Split)).Nodup
      else
        ((df.getCol Columns.Model).map
          (fun c => Cell.str (normSpaces (cellToString c)))).Nodup)) := by
  obtain ⟨i, hi⟩ := colIdx_isSome_of_mem hm
  have hlen : ((df.getCol Columns.Model).map
      (fun c => Cell.str (normSpaces (cellToString c)))).length = df.rows.length := by
    rw [List.length_map, getCol_length hm]
  have hmodel : (df.setCol Columns.Model ((df.getCol Columns.Model).map
      (fun c => Cell.str (normSpaces (cellToString c))))).getCol Columns.Model =
      (df.getCol Columns.Model).map (fun c => Cell.str (normSpaces (cellToString c))) :=
    getCol_setCol_self hi hWF hlen
  have hsplit : (df.setCol Columns.Model ((df.getCol Columns.Model).map
      (fun c => Cell.str (normSpaces (cellToString c))))).getCol Columns.Split =
      df.getCol Columns.Split :=
    getCol_setCol_other hi (by decide) hlen
  simp only [validateModelsMetricsNames]
  by_cases hs : Columns.Split ∈ df.cols
  · rw [if_pos hs, if_pos hs, hmodel, hsplit, List.zipWith_map_left]
    simp only [cellToString]
    split
    · rename_i hcond
      constructor
      · intro h
        exact absurd h (by simp)
      · intro hnd
        exact absurd ((dedup_length_eq_iff _).mpr hnd) hcond
    · rename_i hcond
      constructor
      · intro _
        exact (dedup_length_eq_iff _).mp (not_ne_iff.mp hcond)
      · intro _
        rfl
  · rw [if_neg hs, if_neg hs, hmodel]
    have hnn : Cell.nan ∉ (df.getCol Columns.Model).map
        (fun c => Cell.str (normSpaces (cellToString c))) := by simp
    split
    · rename_i hcond
      constructor
      · intro h
        exact absurd h (by simp)
      · intro hnd
        exact absurd ((nunique_eq_length_iff _).mpr ⟨hnd, hnn⟩) hcond
    · rename_i hcond
      constructor
      · intro _
        exact ((nunique_eq_length_iff _).mp (not_ne_iff.mp hcond)).1
      · intro _
        rfl

/-- C3 amended, witnessed at the colliding table. -/
theorem names_validation_iff_normalized_keys_witness :
    ((validateModelsMetricsNames c3Bad).2 = .ok () ↔
      (if Columns.Split ∈ c3Bad.cols then
        (List.zipWith (fun m s => normSpaces (cellToString m) ++ cellToString s)
          (c3Bad.getCol Columns.Model) (c3Bad.getCol Columns.Split)).Nodup
      else
        ((c3Bad.getCol Columns.Model).map
          (fun c => Cell.str (normSpaces (cellToString c)))).Nodup)) :=
  names_validation_iff_normalized_keys c3Bad (by decide) (by decide)

lemma checkSplitGroups_ok_iff (c : Nat) (S : Finset Cell) (gs : List (Cell × DataFrame)) :
    checkSplitGroups c S gs = .ok () ↔
      ∀ p ∈ gs, nunique (p.2.getCol "i_split") = c ∧ uniqueSet (p.2.getCol "i_split") = S := by
  induction gs with
  | nil => simp [checkSplitGroups]
  | cons g rest ih =>
    obtain ⟨m, gdf⟩ := g
    rw [checkSplitGroups]
    split
    · rename_i hcnt
      constructor
      · intro h
        exact absurd h (by simp)
      · intro h
        exact absurd (h (m, gdf) (List.mem_cons_self _ _)).1 hcnt
    · split
      · rename_i hset
        constructor
        · intro h
          exact absurd h (by simp)
        · intro h
          exact absurd (h (m, gdf) (List.mem_cons_self _ _)).2 hset
      · rename_i hcnt hset
        rw [ih]
        constructor
        · intro h p hp
          rcases List.mem_cons.mp hp with rfl | hp
          · exact ⟨not_ne_iff.mp hcnt, not_ne_iff.mp hset⟩
          · exact h p hp
        · intro h p hp
          exact h p (List.mem_cons_of_mem _ hp)

lemma checkSplitGroups_cases (c : Nat) (S : Finset Cell) (gs : List (Cell × DataFrame)) :
    checkSplitGroups c S gs = .ok () ∨
      ∃ m, checkSplitGroups c S gs = .error (.valueError m) := by
  induction gs with
  | nil => exact Or.inl rfl
  | cons g rest ih =>
    obtain ⟨m, gdf⟩ := g
    rw [checkSplitGroups]
    split
    · exact Or.inr ⟨_, rfl⟩
    · split
      · exact Or.inr ⟨_, rfl⟩
      · exact ih

/-- C2: with a fold column present, the split validator accepts exactly when
every model group's fold-id set equals the reference (first) group's fold-id
set; acceptance forces all models to share one fold-id set, and any deviation
is reported as a value error.  (A differing distinct-fold count implies a
differing fold set, so the count check adds nothing to the condition.) -/
theorem split_validation_iff (df : DataFrame) (k0 : Cell) (g0 : DataFrame)
    (rest : List (Cell × DataFrame)) (hs : Columns.Split ∈ df.cols)
    (hg : df.groupByCol Columns.Model true = (k0, g0) :: rest) :
    (validateModelsMetricsSplit df = .ok () ↔
      ∀ p ∈ (k0, g0) :: rest,
        uniqueSet (p.2.getCol Columns.Split) = uniqueSet (g0.getCol Columns.Split)) ∧
    (validateModelsMetricsSplit df = .ok () →
      ∀ p ∈ (k0, g0) :: rest, ∀ q ∈ (k0, g0) :: rest,
        uniqueSet (p.2.getCol Columns.Split) = uniqueSet (q.2.getCol Columns.Split)) ∧
    ((∃ p ∈ (k0, g0) :: rest,
        uniqueSet (p.2.getCol Columns.Split) ≠ uniqueSet (g0.getCol Columns.Split)) →
      ∃ m, validateModelsMetricsSplit df = .error (.valueError m)) := by
  have hval : validateModelsMetricsSplit df =
      checkSplitGroups (nunique (g0.getCol Columns.Split))
        (uniqueSet (g0.getCol Columns.Split)) ((k0, g0) :: rest) := by
    unfold validateModelsMetricsSplit
    rw [if_neg (not_not_intro hs), hg]
  have hiff : validateModelsMetricsSplit df = .ok () ↔
      ∀ p ∈ (k0, g0) :: rest,
        uniqueSet (p.2.getCol Columns.Split) = uniqueSet (g0.getCol Columns.Split) := by
    rw [hval, checkSplitGroups_ok_iff]
    constructor
    · exact fun h p hp => (h p hp).2
    · exact fun h p hp => ⟨nunique_congr_of_uniqueSet (h p hp), h p hp⟩
  refine ⟨hiff, ?_, ?_⟩
  · intro hok p hp q hq
    exact ((hiff.mp hok) p hp).trans ((hiff.mp hok) q hq).symm
  · rintro ⟨p, hp, hne⟩
    have hnok : validateModelsMetricsSplit df ≠ .ok () :=
      fun hok => hne ((hiff.mp hok) p hp)
    rcases checkSplitGroups_cases (nunique (g0.getCol Columns.Split))
        (uniqueSet (g0.getCol Columns.Split)) ((k0, g0) :: rest) with hok | ⟨m, hm⟩
    · exact absurd (hval.trans hok) hnok
    · exact ⟨m, hval.trans hm⟩

/-- C2 witnessed at a two-model, two-fold table whose groupby is computed
concretely. -/
theorem split_validation_iff_witness :
    (validateModelsMetricsSplit c2Metrics = .ok () ↔
      ∀ p ∈ [(Cell.str "A", c2g0), (Cell.str "B", c2g1)],
        uniqueSet (p.2.getCol Columns.Split) = uniqueSet (c2g0.getCol Columns.Split)) ∧
    (validateModelsMetricsSplit c2Metrics = .ok () →
      ∀ p ∈ [(Cell.str "A", c2g0), (Cell.str "B", c2g1)],
        ∀ q ∈ [(Cell.str "A", c2g0), (Cell.str "B", c2g1)],
          uniqueSet (p.2.getCol Columns.Split) = uniqueSet (q.2.getCol Columns.Split)) ∧
    ((∃ p ∈ [(Cell.str "A", c2g0), (Cell.str "B", c2g1)],
        uniqueSet (p.2.getCol Columns.Split) ≠ uniqueSet (c2g0.getCol Columns.Split)) →
      ∃ m, validateModelsMetricsSplit c2Metrics = .error (.valueError m)) :=
  split_validation_iff c2Metrics (Cell.str "A") c2g0 [(Cell.str "B", c2g1)]
    (by decide) (by decide)

/-- C10: every model cell of a successfully constructed app's stored dataset
is a string with no space character, equal to the space-normalized string
form of some model cell of the input metrics table; hence every entry of the
model-names query is such a normalized identifier.  (The stored dataset is a
value, so nothing can modify it after construction.) -/
theorem construct_model_names_normalized (mm : DataFrame) (mdIn : Option DataFrame)
    (mmOut : DataFrame) (app : MetricsApp) (hWF : mm.WF)
    (h : construct mm mdIn = (mmOut, .ok app)) :
    (∀ x ∈ app.data.getCol Columns.Model, ∃ s : String,
        x = Cell.str s ∧ (∀ ch ∈ s.data, ch ≠ ' ') ∧
        ∃ c0 ∈ mm.getCol Columns.Model, s = normSpaces (cellToString c0)) ∧
    (∀ x ∈ app.modelNames, ∃ s : String,
        x = Cell.str s ∧ (∀ ch ∈ s.data, ch ≠ ' ') ∧
        ∃ c0 ∈ mm.getCol Columns.Model, s = normSpaces (cellToString c0)) := by
  simp only [construct] at h
  split at h
  · simp at h
  rename_i heqbase
  split at h
  · simp at h
  rename_i heqsplit
  split at h
  · simp at h
  rename_i mm2 heqnames
  generalize hMD : (match mdIn with
    | some d => d
    | none => (⟨[Columns.Model],
        (dedupFirst (mm2.getCol Columns.Model)).map (fun c => [c])⟩ : DataFrame)) = MD at h
  split at h
  · simp at h
  rename_i heqmd
  rw [Prod.mk.injEq] at h
  obtain ⟨hout, happ⟩ := h
  rw [Except.ok.injEq] at happ
  have hmem : Columns.Model ∈ mm.cols := base_ok_model_mem heqbase
  obtain ⟨i, hi⟩ := colIdx_isSome_of_mem hmem
  have hmm2 : mm2 = mm.setCol Columns.Model
      ((mm.getCol Columns.Model).map (fun c => Cell.str (normSpaces (cellToString c)))) := by
    rw [← validateNames_fst mm, heqnames]
  have hlen : ((mm.getCol Columns.Model).map
      (fun c => Cell.str (normSpaces (cellToString c)))).length = mm.rows.length := by
    rw [List.length_map, getCol_length hmem]
  have hWF2 : mm2.WF := by
    rw [hmm2]
    exact setCol_WF hi hWF _
  have hidx2 : mm2.colIdx Columns.Model = some i := by
    rw [hmm2]
    exact (colIdx_setCol hi _ _).trans hi
  have hcol2 : mm2.getCol Columns.Model =
      (mm.getCol Columns.Model).map (fun c => Cell.str (normSpaces (cellToString c))) := by
    rw [hmm2]
    exact getCol_setCol_self hi hWF hlen
  have hidxm : (mm2.mergeLeft MD Columns.Model).colIdx Columns.Model = some i :=
    colIdx_mergeLeft_left MD hidx2
  have hWFm : (mm2.mergeLeft MD Columns.Model).WF := mergeLeft_WF MD Columns.Model hWF2
  have hlenm : (((mm2.mergeLeft MD Columns.Model).getCol Columns.Model).map
      (fun c => match c with
        | Cell.str s => Cell.str (normSpaces s)
        | _ => Cell.nan)).length = (mm2.mergeLeft MD Columns.Model).rows.length := by
    rw [List.length_map, getCol_length (mem_of_colIdx hidxm)]
  have hdata : app.data = (mm2.mergeLeft MD Columns.Model).setCol Columns.Model
      (((mm2.mergeLeft MD Columns.Model).getCol Columns.Model).map
        (fun c => match c with
          | Cell.str s => Cell.str (normSpaces s)
          | _ => Cell.nan)) := by
    rw [← happ]
  have hcold : app.data.getCol Columns.Model =
      ((mm2.mergeLeft MD Columns.Model).getCol Columns.Model).map
        (fun c => match c with
          | Cell.str s => Cell.str (normSpaces s)
          | _ => Cell.nan) := by
    rw [hdata]
    exact getCol_setCol_self hidxm hWFm hlenm
  have hmain : ∀ x ∈ app.data.getCol Columns.Model, ∃ s : String,
      x = Cell.str s ∧ (∀ ch ∈ s.data, ch ≠ ' ') ∧
      ∃ c0 ∈ mm.getCol Columns.Model, s = normSpaces (cellToString c0) := by
    intro x hx
    rw [hcold] at hx
    obtain ⟨y, hy, rfl⟩ := List.mem_map.mp hx
    have hy2 : y ∈ mm2.getCol Columns.Model := mem_getCol_mergeLeft_left hidx2 hWF2 y hy
    rw [hcol2] at hy2
    obtain ⟨c0, hc0, rfl⟩ := List.mem_map.mp hy2
    refine ⟨normSpaces (cellToString c0), ?_, normSpaces_no_space _, c0, hc0, rfl⟩
    show Cell.str (normSpaces (normSpaces (cellToString c0))) =
      Cell.str (normSpaces (cellToString c0))
    rw [normSpaces_idem]
  refine ⟨hmain, ?_⟩
  intro x hx
  simp only [MetricsApp.modelNames] at hx
  exact hmain x (mem_dedupFirst.mp (mem_sortCells.mp hx))

/-- C5: on the spec's example (models Model1/Model2 over folds 0,1,2 with
`prec@10` = 0.1,0.3,0.5 resp. 0.2,0.4,0.6) the average view holds the
arithmetic means 0.3 for Model1 and 0.4 for Model2; and on a probe whose
first-appearance model order ("Z" before "A") differs from sorted order and
that carries metadata, the average view keeps the insertion order of first
appearance, de-duplicates the metadata per model and left-joins it back by
model.  The rational constants are literal normal forms whose decimal values
are asserted alongside. -/
theorem avg_view_groups_means_and_joins :
    ((construct c5Metrics none).2.toOption.map
        (fun app => (makeChartDataAvg (initState app)).1)) =
      some ⟨[Columns.Model, "prec@10"],
            [[Cell.str "Model1", Cell.rat (Rat.mk' 3 10)],
             [Cell.str "Model2", Cell.rat (Rat.mk' 2 5)]]⟩ ∧
    (Rat.mk' 3 10 : ℚ) = 0.3 ∧ (Rat.mk' 2 5 : ℚ) = 0.4 ∧
    c5Metrics = ⟨[Columns.Model, Columns.Split, "prec@10"],
      [[Cell.str "Model1", Cell.int 0, Cell.rat 0.1],
       [Cell.str "Model2", Cell.int 0, Cell.rat 0.2],
       [Cell.str "Model1", Cell.int 1, Cell.rat 0.3],
       [Cell.str "Model2", Cell.int 1, Cell.rat 0.4],
       [Cell.str "Model1", Cell.int 2, Cell.rat 0.5],
       [Cell.str "Model2", Cell.int 2, Cell.rat 0.6]]⟩ ∧
    ((construct c5bMetrics (some c5bMeta)).2.toOption.map
        (fun app => (makeChartDataAvg (initState app)).1)) =
      some ⟨[Columns.Model, "m", "f"],
            [[Cell.str "Z", Cell.rat (Rat.mk' 2 1), Cell.int 10],
             [Cell.str "A", Cell.rat (Rat.mk' 3 1), Cell.int 20]]⟩ ∧
    (Rat.mk' 2 1 : ℚ) = 2 ∧ (Rat.mk' 3 1 : ℚ) = 3 := by
  refine ⟨?_, by norm_num [Rat.mk'_eq_divInt, Rat.divInt_eq_div],
    by norm_num [Rat.mk'_eq_divInt, Rat.divInt_eq_div],
    by norm_num [c5Metrics, Rat.mk'_eq_divInt, Rat.divInt_eq_div], ?_,
    by norm_num [Rat.mk'_eq_divInt, Rat.divInt_eq_div],
    by norm_num [Rat.mk'_eq_divInt, Rat.divInt_eq_div]⟩
  · have h1 : (construct c5Metrics none).2 = .ok c5App := by decide
    rw [h1]
    show some (makeChartDataAvgPure c5App) = _
    refine congrArg some ?_
    have hg : (c5App.data.select (Columns.Model :: c5App.metricNames)).groupByCol
        Columns.Model false = [(Cell.str "Model1", c5gM1), (Cell.str "Model2", c5gM2)] := by
      decide
    have hm1 : cellMean (c5gM1.getCol "prec@10") = Cell.rat (Rat.mk' 3 10) := by
      have hl : c5gM1.getCol "prec@10" =
          [Cell.rat (Rat.mk' 1 10), Cell.rat (Rat.mk' 3 10), Cell.rat (Rat.mk' 1 2)] := by
        decide
      rw [hl]
      simp only [cellMean, List.filterMap_cons, List.filterMap_nil]
      norm_num [Rat.mk'_eq_divInt, Rat.divInt_eq_div]
    have hm2 : cellMean (c5gM2.getCol "prec@10") = Cell.rat (Rat.mk' 2 5) := by
      have hl : c5gM2.getCol "prec@10" =
          [Cell.rat (Rat.mk' 1 5), Cell.rat (Rat.mk' 2 5), Cell.rat (Rat.mk' 3 5)] := by
        decide
      rw [hl]
      simp only [cellMean, List.filterMap_cons, List.filterMap_nil]
      norm_num [Rat.mk'_eq_divInt, Rat.divInt_eq_div]
    simp only [makeChartDataAvgPure]
    rw [hg]
    simp only [c5App, List.map_cons, List.map_nil]
    rw [hm1, hm2]
    decide
  · have h1 : (construct c5bMetrics (some c5bMeta)).2 = .ok c5bApp := by decide
    rw [h1]
    show some (makeChartDataAvgPure c5bApp) = _
    refine congrArg some ?_
    have hg : (c5bApp.data.select (Columns.Model :: c5bApp.metricNames)).groupByCol
        Columns.Model false = [(Cell.str "Z", c5bgZ), (Cell.str "A", c5bgA)] := by
      decide
    have hmZ : cellMean (c5bgZ.getCol "m") = Cell.rat (Rat.mk' 2 1) := by
      have hl : c5bgZ.getCol "m" = [Cell.int 1, Cell.int 3] := by decide
      rw [hl]
      simp only [cellMean, List.filterMap_cons, List.filterMap_nil]
      norm_num [Rat.mk'_eq_divInt, Rat.divInt_eq_div]
    have hmA : cellMean (c5bgA.getCol "m") = Cell.rat (Rat.mk' 3 1) := by
      have hl : c5bgA.getCol "m" = [Cell.int 2, Cell.int 4] := by decide
      rw [hl]
      simp only [cellMean, List.filterMap_cons, List.filterMap_nil]
      norm_num [Rat.mk'_eq_divInt, Rat.divInt_eq_div]
    simp only [makeChartDataAvgPure]
    rw [hg]
    simp only [c5bApp, List.map_cons, List.map_nil]
    rw [hmZ, hmA]
    decide

/-- C10 witnessed at a concrete construction whose input name has a space. -/
theorem construct_model_names_normalized_witness :
    (∀ x ∈ c10App.data.getCol Columns.Model, ∃ s : String,
        x = Cell.str s ∧ (∀ ch ∈ s.data, ch ≠ ' ') ∧
        ∃ c0 ∈ c10Metrics.getCol Columns.Model, s = normSpaces (cellToString c0)) ∧
    (∀ x ∈ c10App.modelNames, ∃ s : String,
        x = Cell.str s ∧ (∀ ch ∈ s.data, ch ≠ ' ') ∧
        ∃ c0 ∈ c10Metrics.getCol Columns.Model, s = normSpaces (cellToString c0)) :=
  construct_model_names_normalized c10Metrics none c10Out c10App (by decide) (by decide)

end MetricsAppSpec
